import Mathlib

/-!
Shallow embedding of the currency exchange library (`src/currency_exchange.py`)
together with proofs about its operations.

Modelling conventions:
* Python numbers (`int`/`float` amounts and rates) are embedded as `PyFloat`:
  a rational for the finite values plus the three special values `inf`,
  `-inf` and `nan`, with IEEE-style comparison and arithmetic.  The binary
  representation of doubles is abstracted: finite values are exact rationals.
* Python exceptions become explicit `Except`/`Option` results.  The single
  Python class `CurrencyExchangeError` carries its different messages as the
  kinds of `CEKind`; raw (non-library) exceptions such as the `ValueError`
  from `max()` on an empty sequence or from `datetime.fromisoformat` are
  separate constructors of `PyError`.
* Python `dict`s become association lists in insertion order; `dictInsert`
  mirrors `d[k] = v` (replace in place, else append) and `dictUpdate`
  mirrors `d.update(m)`.
* Timestamps (`datetime.now()`, `isoformat`/`fromisoformat`) are abstracted
  to natural numbers; `isoformat` round-trips exactly, and an unparsable
  `last_updated` string in an imported document is the `TimeVal.malformed`
  case, on which `fromisoformat` raises a raw `ValueError`.
* File reading and JSON parsing in `export_rates`/`import_rates` are
  abstracted away: the operations exchange an already-parsed `RatesDoc`.
-/

/-- A Python `float` (or `int`) value: exact rationals plus IEEE specials. -/
inductive PyFloat where
  | fin (q : ℚ)
  | inf
  | negInf
  | nan
deriving DecidableEq

/-- Is this a finite value? -/
def PyFloat.isFin : PyFloat → Bool
  | .fin _ => true
  | _ => false

/-- Is this a strictly positive finite value? -/
def PyFloat.isFinitePos : PyFloat → Bool
  | .fin q => decide (0 < q)
  | _ => false

/-- The rational value of a finite `PyFloat` (defaulting to 0 on specials). -/
def qval : PyFloat → ℚ
  | .fin q => q
  | _ => 0

/-- Python `x < 0` (IEEE: `nan < 0` is `False`, `inf < 0` is `False`). -/
def pyLtZero : PyFloat → Bool
  | .fin q => decide (q < 0)
  | .negInf => true
  | _ => false

/-- Python `x <= 0` (IEEE: `nan <= 0` is `False`, `inf <= 0` is `False`). -/
def pyLeZero : PyFloat → Bool
  | .fin q => decide (q ≤ 0)
  | .negInf => true
  | _ => false

/-- Python `a > b` with IEEE semantics (`nan` incomparable). -/
def pyGt : PyFloat → PyFloat → Bool
  | .nan, _ => false
  | _, .nan => false
  | .fin q, .fin r => decide (r < q)
  | .fin _, .inf => false
  | .fin _, .negInf => true
  | .inf, .inf => false
  | .inf, _ => true
  | .negInf, _ => false

/-- Python `a * b` with IEEE semantics. -/
def pyMul : PyFloat → PyFloat → PyFloat
  | .nan, _ => .nan
  | _, .nan => .nan
  | .fin q, .fin r => .fin (q * r)
  | .fin q, .inf => if 0 < q then .inf else if q < 0 then .negInf else .nan
  | .fin q, .negInf => if 0 < q then .negInf else if q < 0 then .inf else .nan
  | .inf, .fin r => if 0 < r then .inf else if r < 0 then .negInf else .nan
  | .negInf, .fin r => if 0 < r then .negInf else if r < 0 then .inf else .nan
  | .inf, .inf => .inf
  | .inf, .negInf => .negInf
  | .negInf, .inf => .negInf
  | .negInf, .negInf => .inf

/-- The distinct messages with which the library raises `CurrencyExchangeError`. -/
inductive CEKind where
  | unsupportedCurrency (code : String)
  | invalidAmount
  | invalidRate
deriving DecidableEq

/-- A raised Python exception: either the library's `CurrencyExchangeError`
(with its message kind) or a raw built-in exception. -/
inductive PyError where
  | currencyError (kind : CEKind)
  | valueErrorEmptySeq
  | valueErrorBadIsoformat (s : String)
  | zeroDivisionError
deriving DecidableEq

/-- Whether a raised exception is an instance of `CurrencyExchangeError`. -/
def PyError.isCurrencyExchangeError : PyError → Bool
  | .currencyError _ => true
  | _ => false

instance {ε α : Type} [DecidableEq ε] [DecidableEq α] : DecidableEq (Except ε α) := fun a b =>
  match a, b with
  | .ok x, .ok y =>
    if h : x = y then isTrue (by rw [h])
    else isFalse (fun hc => h (Except.ok.inj hc))
  | .error x, .error y =>
    if h : x = y then isTrue (by rw [h])
    else isFalse (fun hc => h (Except.error.inj hc))
  | .ok _, .error _ => isFalse (fun hc => Except.noConfusion hc)
  | .error _, .ok _ => isFalse (fun hc => Except.noConfusion hc)

/-- `c.upper()` on a single character (ASCII, as for all currency codes). -/
def upChar (c : Char) : Char :=
  if 97 ≤ c.toNat ∧ c.toNat ≤ 122 then Char.ofNat (c.toNat - 32) else c

/-- Python `s.upper()`, the normalization the library applies to every
currency code (executable, unlike `String.toUpper`, under kernel reduction). -/
def pyUpper (s : String) : String :=
  String.mk (s.toList.map upChar)

/-- Python `a / b` on floats: raises `ZeroDivisionError` on a zero divisor,
otherwise IEEE division. -/
def pyDiv (a b : PyFloat) : Except PyError PyFloat :=
  if b = .fin 0 then .error .zeroDivisionError
  else match a, b with
    | .nan, _ => .ok .nan
    | _, .nan => .ok .nan
    | .fin q, .fin r => .ok (.fin (q / r))
    | .fin _, .inf => .ok (.fin 0)
    | .fin _, .negInf => .ok (.fin 0)
    | .inf, .fin r => .ok (if 0 < r then .inf else .negInf)
    | .negInf, .fin r => .ok (if 0 < r then .negInf else .inf)
    | .inf, .inf => .ok .nan
    | .inf, .negInf => .ok .nan
    | .negInf, .inf => .ok .nan
    | .negInf, .negInf => .ok .nan

/-- Round a rational to the nearest integer, ties to even (the rounding of
Python's `round` and string formatting). -/
def roundHalfEven (q : ℚ) : ℤ :=
  let f : ℤ := q.floor
  let r : ℚ := q - (f : ℚ)
  if r < 1/2 then f
  else if 1/2 < r then f + 1
  else if f % 2 = 0 then f else f + 1

/-- `round(x, 2)` on a rational. -/
def roundTo2 (q : ℚ) : ℚ :=
  (roundHalfEven (q * 100) : ℚ) / 100

/-- Python `round(x, 2)` on a float (`round(inf, 2) = inf`, `round(nan, 2) = nan`). -/
def pyRound2 : PyFloat → PyFloat
  | .fin q => .fin (roundTo2 q)
  | x => x

/-- Insert a comma after every three characters of a reversed digit list. -/
def group3rev : List Char → List Char
  | a :: b :: c :: d :: rest => a :: b :: c :: ',' :: group3rev (d :: rest)
  | l => l

/-- Comma thousands-grouping of a digit string. -/
def groupThousands (s : String) : String :=
  String.mk ((group3rev s.toList.reverse).reverse)

/-- Left-pad a string with zeros to the given length. -/
def padLeft0 (s : String) (n : Nat) : String :=
  String.mk (List.replicate (n - s.length) '0') ++ s

/-- The fixed-point formatting `f"{q:,.{dp}f}"` of a rational: comma
thousands-grouping, dot decimal point, `dp` fractional digits,
rounding half to even. -/
def formatFixedQ (q : ℚ) (dp : Nat) : String :=
  let n : Nat := (roundHalfEven (|q| * (10 : ℚ) ^ dp)).toNat
  let ipStr := groupThousands (toString (n / 10 ^ dp))
  let sign := if q < 0 then "-" else ""
  if dp = 0 then sign ++ ipStr
  else sign ++ ipStr ++ "." ++ padLeft0 (toString (n % 10 ^ dp)) dp

/-- `f"{amount:,.{dp}f}"` on a `PyFloat` (`inf`, `-inf` and `nan` format as
their names, ungrouped, as in Python). -/
def pyFormatFixed : PyFloat → Nat → String
  | .fin q, dp => formatFixedQ q dp
  | .inf, _ => "inf"
  | .negInf, _ => "-inf"
  | .nan, _ => "nan"

/-- `d[k]` lookup in a Python dict modelled as an association list. -/
def dictFind {α : Type} (k : String) : List (String × α) → Option α
  | [] => none
  | (k1, v) :: rest => if k1 = k then some v else dictFind k rest

/-- `d[k] = v`: replace the value in place if the key is present, else append. -/
def dictInsert {α : Type} (k : String) (v : α) : List (String × α) → List (String × α)
  | [] => [(k, v)]
  | (k1, v1) :: rest =>
    if k1 = k then (k1, v) :: rest else (k1, v1) :: dictInsert k v rest

/-- `d.update(m)`: upsert every entry of `m` into `d`, in order. -/
def dictUpdate {α : Type} (d m : List (String × α)) : List (String × α) :=
  m.foldl (fun acc p => dictInsert p.1 p.2 acc) d

/-- Guarded dict subscript: in the source every `self._exchange_rates[k]`
is dominated by a successful membership check, so the default is never hit. -/
def dictGetD (k : String) (d : List (String × PyFloat)) : PyFloat :=
  (dictFind k d).getD .nan

/-- The exchange state: base currency, rate table (in insertion order), and
last-updated timestamp.  The symbol and name tables are never mutated by any
operation (imports ignore them), so they are the global constants below. -/
structure CurrencyExchange where
  base_currency : String
  exchange_rates : List (String × PyFloat)
  last_updated : Nat
deriving DecidableEq

/-- The seeded rate table (`self._exchange_rates` in `__init__`). -/
def initialRates : List (String × PyFloat) :=
  [("USD", .fin 1.0), ("EUR", .fin 0.85), ("GBP", .fin 0.73), ("JPY", .fin 110.0),
   ("CAD", .fin 1.25), ("AUD", .fin 1.35), ("CHF", .fin 0.92), ("CNY", .fin 6.45),
   ("INR", .fin 74.5), ("BRL", .fin 5.2), ("MXN", .fin 20.1), ("KRW", .fin 1180.0),
   ("SGD", .fin 1.35), ("HKD", .fin 7.8), ("NOK", .fin 8.6), ("SEK", .fin 8.9),
   ("DKK", .fin 6.3), ("PLN", .fin 3.9), ("CZK", .fin 21.5), ("HUF", .fin 295.0)]

/-- The seeded symbol table (`self._currency_symbols`, never mutated). -/
def currencySymbols : List (String × String) :=
  [("USD", "$"), ("EUR", "€"), ("GBP", "£"), ("JPY", "¥"),
   ("CAD", "C$"), ("AUD", "A$"), ("CHF", "CHF"), ("CNY", "¥"),
   ("INR", "₹"), ("BRL", "R$"), ("MXN", "$"), ("KRW", "₩"),
   ("SGD", "S$"), ("HKD", "HK$"), ("NOK", "kr"), ("SEK", "kr"),
   ("DKK", "kr"), ("PLN", "zł"), ("CZK", "Kč"), ("HUF", "Ft")]

/-- The seeded name table (`self._currency_names`, never mutated). -/
def currencyNames : List (String × String) :=
  [("USD", "US Dollar"), ("EUR", "Euro"), ("GBP", "British Pound Sterling"),
   ("JPY", "Japanese Yen"), ("CAD", "Canadian Dollar"), ("AUD", "Australian Dollar"),
   ("CHF", "Swiss Franc"), ("CNY", "Chinese Yuan"), ("INR", "Indian Rupee"),
   ("BRL", "Brazilian Real"), ("MXN", "Mexican Peso"), ("KRW", "South Korean Won"),
   ("SGD", "Singapore Dollar"), ("HKD", "Hong Kong Dollar"), ("NOK", "Norwegian Krone"),
   ("SEK", "Swedish Krona"), ("DKK", "Danish Krone"), ("PLN", "Polish Zloty"),
   ("CZK", "Czech Koruna"), ("HUF", "Hungarian Forint")]

/-- The state constructed by `CurrencyExchange.__init__` (construction time
abstracted to timestamp 0). -/
def initialState : CurrencyExchange :=
  { base_currency := "USD", exchange_rates := initialRates, last_updated := 0 }

/-- `is_valid_currency`: case-insensitive membership in the rate table. -/
def CurrencyExchange.is_valid_currency (st : CurrencyExchange) (currency_code : String) : Bool :=
  (dictFind (pyUpper currency_code) st.exchange_rates).isSome

/-- `get_currency_symbol`: the display symbol, or `UnsupportedCurrency`. -/
def CurrencyExchange.get_currency_symbol (st : CurrencyExchange) (currency_code : String) :
    Except PyError String :=
  let cc := pyUpper currency_code
  match dictFind cc currencySymbols with
  | none => .error (.currencyError (.unsupportedCurrency cc))
  | some s => .ok s

/-- `get_exchange_rate`: validate both codes, return `1.0` on equal codes,
else divide the two base-relative rates. -/
def CurrencyExchange.get_exchange_rate (st : CurrencyExchange)
    (from_currency to_currency : String) : Except PyError PyFloat :=
  let fc := pyUpper from_currency
  let tc := pyUpper to_currency
  if st.is_valid_currency fc = false then
    .error (.currencyError (.unsupportedCurrency fc))
  else if st.is_valid_currency tc = false then
    .error (.currencyError (.unsupportedCurrency tc))
  else if fc = tc then .ok (.fin 1.0)
  else pyDiv (dictGetD tc st.exchange_rates) (dictGetD fc st.exchange_rates)

/-- `convert`: reject negative amounts, then round the product to 2 places.
(The `isinstance` check is vacuous here: every `PyFloat` is a number.) -/
def CurrencyExchange.convert (st : CurrencyExchange) (amount : PyFloat)
    (from_currency to_currency : String) : Except PyError PyFloat :=
  if pyLtZero amount then .error (.currencyError .invalidAmount)
  else
    match st.get_exchange_rate from_currency to_currency with
    | .error e => .error e
    | .ok exchange_rate => .ok (pyRound2 (pyMul amount exchange_rate))

/-- The loop body of `convert_multiple`, carried out over the result dict. -/
def convertMultipleAux (st : CurrencyExchange) (amount : PyFloat) (from_currency : String) :
    List String → List (String × PyFloat) → Except PyError (List (String × PyFloat))
  | [], results => .ok results
  | to_currency :: rest, results =>
    match st.convert amount from_currency to_currency with
    | .error e => .error e
    | .ok v => convertMultipleAux st amount from_currency rest
        (dictInsert (pyUpper to_currency) v results)

/-- `convert_multiple`: convert to each target in list order, keying the
result dict by the upper-cased code; the first failing target aborts. -/
def CurrencyExchange.convert_multiple (st : CurrencyExchange) (amount : PyFloat)
    (from_currency : String) (to_currencies : List String) :
    Except PyError (List (String × PyFloat)) :=
  convertMultipleAux st amount from_currency to_currencies []

/-- `format_currency`: validate the code, format the amount, then prefix the
symbol or append a space and the upper-cased code. -/
def CurrencyExchange.format_currency (st : CurrencyExchange) (amount : PyFloat)
    (currency_code : String) (include_symbol : Bool) (decimal_places : Nat) :
    Except PyError String :=
  let cc := pyUpper currency_code
  if st.is_valid_currency cc = false then
    .error (.currencyError (.unsupportedCurrency cc))
  else
    let formatted_amount := pyFormatFixed amount decimal_places
    if include_symbol then
      match st.get_currency_symbol cc with
      | .error e => .error e
      | .ok symbol => .ok (symbol ++ formatted_amount)
    else .ok (formatted_amount ++ " " ++ cc)

/-- `update_exchange_rate`: validate the code and the rate (Python's
`rate <= 0` check), then overwrite the stored rate and the timestamp.
`now` is the value of `datetime.now()` at the call. -/
def CurrencyExchange.update_exchange_rate (st : CurrencyExchange) (currency_code : String)
    (rate : PyFloat) (now : Nat) : Except PyError CurrencyExchange :=
  let cc := pyUpper currency_code
  if st.is_valid_currency cc = false then
    .error (.currencyError (.unsupportedCurrency cc))
  else if pyLeZero rate then .error (.currencyError .invalidRate)
  else .ok { st with exchange_rates := dictInsert cc rate st.exchange_rates,
                     last_updated := now }

/-- `update_multiple_rates`: apply `update_exchange_rate` per entry in
iteration order; an exception aborts the loop, leaving the updates already
applied in place.  The pair carries the state at exit and the raised error. -/
def CurrencyExchange.update_multiple_rates (st : CurrencyExchange)
    (rates : List (String × PyFloat)) (now : Nat) : CurrencyExchange × Option PyError :=
  match rates with
  | [] => (st, none)
  | (currency_code, rate) :: rest =>
    match st.update_exchange_rate currency_code rate now with
    | .ok st1 => st1.update_multiple_rates rest now
    | .error e => (st, some e)

/-- One step of `max(keys, key=lambda x: conversions[x])`: replace the
best-so-far when the candidate compares strictly greater. -/
def selStep (best x : String × PyFloat) : String × PyFloat :=
  if pyGt x.2 best.2 then x else best

/-- `max` over the entries of the conversions dict (`none` on an empty dict,
where Python raises `ValueError`). -/
def pyMaxEntry : List (String × PyFloat) → Option (String × PyFloat)
  | [] => none
  | e :: rest => some (rest.foldl selStep e)

/-- The record returned by `find_best_exchange`. -/
structure BestExchange where
  currency : String
  amount : PyFloat
  formatted : String
  rate : PyFloat
deriving DecidableEq

/-- `find_best_exchange`: convert to every target, take the key with the
greatest converted amount (first wins on ties), and bundle currency, amount,
formatted string and rate.  `max` on no targets raises a raw `ValueError`. -/
def CurrencyExchange.find_best_exchange (st : CurrencyExchange) (amount : PyFloat)
    (from_currency : String) (to_currencies : List String) : Except PyError BestExchange :=
  match st.convert_multiple amount from_currency to_currencies with
  | .error e => .error e
  | .ok conversions =>
    match pyMaxEntry conversions with
    | none => .error .valueErrorEmptySeq
    | some best =>
      match st.get_exchange_rate from_currency best.1 with
      | .error e => .error e
      | .ok best_rate =>
        match st.format_currency best.2 best.1 true 2 with
        | .error e => .error e
        | .ok fmt => .ok ⟨best.1, best.2, fmt, best_rate⟩

/-- A serialized `last_updated` value: either one that `fromisoformat`
parses back (as every `isoformat` output does) or a malformed string. -/
inductive TimeVal where
  | valid (t : Nat)
  | malformed (s : String)
deriving DecidableEq

/-- A parsed JSON rates document; `none` fields are absent keys. -/
structure RatesDoc where
  base_currency : Option String
  exchange_rates : Option (List (String × PyFloat))
  last_updated : Option TimeVal
  currency_symbols : Option (List (String × String))
  currency_names : Option (List (String × String))
deriving DecidableEq

/-- `export_rates`: serialize the full state (file writing abstracted). -/
def CurrencyExchange.export_rates (st : CurrencyExchange) : RatesDoc :=
  { base_currency := some st.base_currency,
    exchange_rates := some st.exchange_rates,
    last_updated := some (TimeVal.valid st.last_updated),
    currency_symbols := some currencySymbols,
    currency_names := some currencyNames }

/-- `import_rates` on an already-parsed document: merge the rates, overwrite
the base currency, then parse `last_updated`.  The `except` clause of the
source catches only `FileNotFoundError`, `json.JSONDecodeError` and
`KeyError` — all upstream of this point — so the `ValueError` raised by
`datetime.fromisoformat` on a malformed string escapes unwrapped, after the
in-place rate merge has already happened.  The pair carries the state at
exit and the escaped error. -/
def CurrencyExchange.import_rates (st : CurrencyExchange) (doc : RatesDoc) (now : Nat) :
    CurrencyExchange × Option PyError :=
  let st1 := match doc.exchange_rates with
    | some m => { st with exchange_rates := dictUpdate st.exchange_rates m }
    | none => st
  let st2 := match doc.base_currency with
    | some b => { st1 with base_currency := b }
    | none => st1
  match doc.last_updated with
  | some (TimeVal.valid t) => ({ st2 with last_updated := t }, none)
  | some (TimeVal.malformed s) => (st2, some (PyError.valueErrorBadIsoformat s))
  | none => ({ st2 with last_updated := now }, none)

/-- The state-mutating operations of the library. -/
inductive ExchangeOp where
  | setRate (code : String) (rate : PyFloat) (now : Nat)
  | setRates (rates : List (String × PyFloat)) (now : Nat)
  | importOp (doc : RatesDoc) (now : Nat)

/-- The state after an operation (on an exception, Python leaves the
partially mutated state in place, which these operations already return). -/
def applyOp (st : CurrencyExchange) : ExchangeOp → CurrencyExchange
  | .setRate code rate now =>
    match st.update_exchange_rate code rate now with
    | .ok st1 => st1
    | .error _ => st
  | .setRates rates now => (st.update_multiple_rates rates now).1
  | .importOp doc now => (st.import_rates doc now).1

/-- States reachable from the seeded initial state. -/
inductive Reachable : CurrencyExchange → Prop
  | init : Reachable initialState
  | step {st : CurrencyExchange} (h : Reachable st) (op : ExchangeOp) :
      Reachable (applyOp st op)

/-- The invariant claimed by the spec: the base currency's stored rate is
exactly 1.0 and every stored rate is a strictly positive finite number. -/
def ratesInvariant (st : CurrencyExchange) : Prop :=
  dictFind st.base_currency st.exchange_rates = some (PyFloat.fin 1) ∧
  st.exchange_rates.all (fun p => p.2.isFinitePos) = true

/-- Run a list of rate updates, `none` as soon as one fails (the successful
prefix of a `update_multiple_rates` call). -/
def runUpdates (st : CurrencyExchange) (now : Nat) :
    List (String × PyFloat) → Option CurrencyExchange
  | [] => some st
  | (code, rate) :: rest =>
    match st.update_exchange_rate code rate now with
    | .ok st1 => runUpdates st1 now rest
    | .error _ => none

/-- A document whose rates are valid but whose `last_updated` string is not
parsable ISO-8601. -/
def badTimestampDoc : RatesDoc :=
  { base_currency := none,
    exchange_rates := some [("EUR", .fin 2)],
    last_updated := some (TimeVal.malformed "not-a-timestamp"),
    currency_symbols := none,
    currency_names := none }

/-! ### Helper lemmas -/

theorem dictFind_dictInsert {α : Type} (k c : String) (v : α) (d : List (String × α)) :
    dictFind c (dictInsert k v d) = if k = c then some v else dictFind c d := by
  induction d with
  | nil => simp [dictInsert, dictFind]
  | cons h t ih =>
    obtain ⟨k1, v1⟩ := h
    by_cases hk : k1 = k
    · subst hk
      by_cases hc : k1 = c <;> simp [dictInsert, dictFind, hc]
    · by_cases hc : k1 = c
      · subst hc
        have : ¬ k = k1 := fun h => hk h.symm
        simp [dictInsert, dictFind, hk, this]
      · simp [dictInsert, dictFind, hk, hc, ih]

theorem dictFind_eq_none_of_not_mem {α : Type} (c : String) (d : List (String × α))
    (h : c ∉ d.map Prod.fst) : dictFind c d = none := by
  induction d with
  | nil => rfl
  | cons p t ih =>
    simp only [List.map_cons, List.mem_cons] at h
    push_neg at h
    have h1 : p.1 ≠ c := fun he => h.1 he.symm
    obtain ⟨k1, v1⟩ := p
    simpa [dictFind, h1] using ih h.2

theorem dictFind_dictUpdate_none {α : Type} (c : String) (m : List (String × α)) :
    ∀ d : List (String × α), dictFind c m = none →
      dictFind c (dictUpdate d m) = dictFind c d := by
  induction m with
  | nil => intro d _; rfl
  | cons p t ih =>
    intro d hm
    obtain ⟨k, v⟩ := p
    simp only [dictFind] at hm
    by_cases hk : k = c
    · simp [hk] at hm
    · simp only [hk, if_false] at hm
      have : dictUpdate d ((k, v) :: t) = dictUpdate (dictInsert k v d) t := rfl
      rw [this, ih _ hm, dictFind_dictInsert, if_neg hk]

theorem dictFind_dictUpdate_some {α : Type} (c : String) (v0 : α) (m : List (String × α)) :
    ∀ d : List (String × α), (m.map Prod.fst).Nodup → dictFind c m = some v0 →
      dictFind c (dictUpdate d m) = some v0 := by
  induction m with
  | nil => intro d _ hm; simp [dictFind] at hm
  | cons p t ih =>
    intro d hnd hm
    obtain ⟨k, v⟩ := p
    simp only [List.map_cons, List.nodup_cons] at hnd
    simp only [dictFind] at hm
    have hstep : dictUpdate d ((k, v) :: t) = dictUpdate (dictInsert k v d) t := rfl
    by_cases hk : k = c
    · subst hk
      simp at hm
      subst hm
      have ht : dictFind k t = none :=
        dictFind_eq_none_of_not_mem k t hnd.1
      rw [hstep, dictFind_dictUpdate_none k t _ ht, dictFind_dictInsert, if_pos rfl]
    · simp only [hk, if_false] at hm
      rw [hstep, ih _ hnd.2 hm]

theorem pyGt_fin (a b : PyFloat) (ha : a.isFin = true) (hb : b.isFin = true) :
    pyGt a b = decide (qval b < qval a) := by
  cases a <;> cases b <;> simp_all [pyGt, PyFloat.isFin, qval]

theorem foldl_selStep_spec (rest : List (String × PyFloat)) :
    ∀ e : String × PyFloat, ((e :: rest).all (fun p => p.2.isFin)) = true →
    (rest.foldl selStep e ∈ e :: rest) ∧
    (∀ p ∈ e :: rest, qval p.2 ≤ qval (rest.foldl selStep e).2) ∧
    ∃ l1 l2, e :: rest = l1 ++ (rest.foldl selStep e) :: l2 ∧
      ∀ p ∈ l1, qval p.2 < qval (rest.foldl selStep e).2 := by
  induction rest with
  | nil =>
    intro e _
    refine ⟨List.mem_singleton.mpr rfl, ?_, [], [], rfl, by simp⟩
    intro p hp
    rw [List.mem_singleton] at hp
    subst hp
    exact le_refl _
  | cons x t ih =>
    intro e hfin
    simp only [List.all_cons, Bool.and_eq_true] at hfin
    obtain ⟨he, hx, ht⟩ := hfin
    have hgt : pyGt x.2 e.2 = decide (qval e.2 < qval x.2) := pyGt_fin _ _ hx he
    simp only [List.foldl_cons]
    by_cases hc : qval e.2 < qval x.2
    · have hsel : selStep e x = x := by
        simp [selStep, hgt, hc]
      rw [hsel]
      have hall : ((x :: t).all (fun p => p.2.isFin)) = true := by
        simp [List.all_cons, hx, ht]
      obtain ⟨hmem, hbound, l1, l2, hdec, hpre⟩ := ih x hall
      have hxle : qval x.2 ≤ qval (t.foldl selStep x).2 :=
        hbound x (List.mem_cons_self _ _)
      refine ⟨List.mem_cons_of_mem _ hmem, ?_, e :: l1, l2, ?_, ?_⟩
      · intro p hp
        rcases List.mem_cons.mp hp with hp | hp
        · subst hp; exact le_of_lt (lt_of_lt_of_le hc hxle)
        · exact hbound p hp
      · rw [List.cons_append, ← hdec]
      · intro p hp
        rcases List.mem_cons.mp hp with hp | hp
        · subst hp; exact lt_of_lt_of_le hc hxle
        · exact hpre p hp
    · have hsel : selStep e x = e := by
        simp [selStep, hgt, hc]
      rw [hsel]
      have hall : ((e :: t).all (fun p => p.2.isFin)) = true := by
        simp [List.all_cons, he, ht]
      obtain ⟨hmem, hbound, l1, l2, hdec, hpre⟩ := ih e hall
      have hele : qval e.2 ≤ qval (t.foldl selStep e).2 :=
        hbound e (List.mem_cons_self _ _)
      have hxle : qval x.2 ≤ qval (t.foldl selStep e).2 :=
        le_trans (le_of_not_lt hc) hele
      refine ⟨?_, ?_, ?_⟩
      · rcases List.mem_cons.mp hmem with hm | hm
        · rw [hm]; exact List.mem_cons_self _ _
        · exact List.mem_cons_of_mem _ (List.mem_cons_of_mem _ hm)
      · intro p hp
        rcases List.mem_cons.mp hp with hp | hp
        · subst hp; exact hele
        · rcases List.mem_cons.mp hp with hp | hp
          · subst hp; exact hxle
          · exact hbound p (List.mem_cons_of_mem _ hp)
      · cases l1 with
        | nil =>
          simp only [List.nil_append] at hdec
          injection hdec with h1 h2
          refine ⟨[], x :: t, ?_, by simp⟩
          rw [List.nil_append, ← h1]
        | cons e1 l1t =>
          simp only [List.cons_append, List.cons.injEq] at hdec
          obtain ⟨he1, hrest⟩ := hdec
          subst he1
          have hein : qval e.2 < qval (t.foldl selStep e).2 :=
            hpre e (List.mem_cons_self _ _)
          refine ⟨e :: x :: l1t, l2, ?_, ?_⟩
          · simp only [List.cons_append, List.cons.injEq, true_and]
            rw [← hrest]
          · intro p hp
            rcases List.mem_cons.mp hp with hp | hp
            · subst hp; exact hein
            · rcases List.mem_cons.mp hp with hp | hp
              · subst hp; exact lt_of_le_of_lt (le_of_not_lt hc) hein
              · exact hpre p (List.mem_cons_of_mem _ hp)

theorem convert_congr (st : CurrencyExchange) (amount : PyFloat)
    (from_currency c c1 : String) (h : pyUpper c = pyUpper c1) :
    st.convert amount from_currency c = st.convert amount from_currency c1 := by
  simp only [CurrencyExchange.convert, CurrencyExchange.get_exchange_rate, h]

theorem convertMultipleAux_find_mono (st : CurrencyExchange) (amount : PyFloat)
    (from_currency : String) :
    ∀ (tos : List String) (acc m : List (String × PyFloat)) (k : String) (v : PyFloat),
      convertMultipleAux st amount from_currency tos acc = .ok m →
      dictFind k acc = some v →
      (∀ c ∈ tos, pyUpper c = k → st.convert amount from_currency c = .ok v) →
      dictFind k m = some v := by
  intro tos
  induction tos with
  | nil =>
    intro acc m k v h hacc _
    simp only [convertMultipleAux, Except.ok.injEq] at h
    rw [← h]; exact hacc
  | cons c rest ih =>
    intro acc m k v h hacc hsame
    simp only [convertMultipleAux] at h
    cases hcv : st.convert amount from_currency c with
    | error e => rw [hcv] at h; exact absurd h (by simp)
    | ok v1 =>
      rw [hcv] at h
      by_cases hk : pyUpper c = k
      · have hv1 : v1 = v := by
          have h2 := hsame c (List.mem_cons_self _ _) hk
          rw [hcv] at h2
          exact Except.ok.inj h2
        subst hv1
        refine ih _ _ _ _ h ?_ ?_
        · rw [dictFind_dictInsert, if_pos hk]
        · intro c1 hc1 hc1k
          exact hsame c1 (List.mem_cons_of_mem _ hc1) hc1k
      · refine ih _ _ _ _ h ?_ ?_
        · rw [dictFind_dictInsert, if_neg hk]; exact hacc
        · intro c1 hc1 hc1k
          exact hsame c1 (List.mem_cons_of_mem _ hc1) hc1k

theorem convertMultipleAux_mem_spec (st : CurrencyExchange) (amount : PyFloat)
    (from_currency : String) :
    ∀ (tos : List String) (acc m : List (String × PyFloat)),
      convertMultipleAux st amount from_currency tos acc = .ok m →
      ∀ c ∈ tos, ∃ v, st.convert amount from_currency c = .ok v ∧
        dictFind (pyUpper c) m = some v := by
  intro tos
  induction tos with
  | nil => intro acc m _ c hc; exact absurd hc (List.not_mem_nil c)
  | cons c1 rest ih =>
    intro acc m h c hc
    simp only [convertMultipleAux] at h
    cases hcv : st.convert amount from_currency c1 with
    | error e => rw [hcv] at h; exact absurd h (by simp)
    | ok v1 =>
      rw [hcv] at h
      rcases List.mem_cons.mp hc with hc | hc
      · subst hc
        refine ⟨v1, hcv, ?_⟩
        refine convertMultipleAux_find_mono st amount from_currency rest _ m _ _ h ?_ ?_
        · rw [dictFind_dictInsert, if_pos rfl]
        · intro c2 _ hup
          exact (convert_congr st amount from_currency c2 c hup).trans hcv
      · exact ih _ _ h c hc

/-! ### Claims -/

/-- C1 counterexample: `convert` does not reject non-finite amounts.  The
claim says `convert(amount, from, to)` fails with `InvalidAmount` whenever
the amount is not a finite, non-negative number — in particular for `NaN`
and positive infinity — but the source only checks `amount < 0`, which is
`False` for both, so they flow through to the result. -/
theorem C1_counterexample :
    initialState.convert PyFloat.inf "USD" "EUR" = .ok PyFloat.inf ∧
    initialState.convert PyFloat.nan "USD" "EUR" = .ok PyFloat.nan := by
  constructor
  · with_unfolding_all rfl
  · with_unfolding_all rfl

/-- C1 (amended): `convert` fails with `InvalidAmount` exactly when
`amount < 0` holds (so negative numbers are rejected but `NaN` and positive
infinity pass); otherwise it returns `round(amount * exchangeRate(from, to), 2)`,
propagating any error of `exchangeRate`; and `round(x, 2)` always lands on
an exact multiple of 1/100, i.e. the result has exactly 2 decimal places. -/
theorem C1_convert_spec (st : CurrencyExchange) (amount : PyFloat)
    (from_currency to_currency : String) :
    (pyLtZero amount = true →
      st.convert amount from_currency to_currency =
        .error (.currencyError .invalidAmount)) ∧
    (pyLtZero amount = false →
      ∀ r, st.get_exchange_rate from_currency to_currency = .ok r →
        st.convert amount from_currency to_currency = .ok (pyRound2 (pyMul amount r))) ∧
    (pyLtZero amount = false →
      ∀ e, st.get_exchange_rate from_currency to_currency = .error e →
        st.convert amount from_currency to_currency = .error e) ∧
    (∀ q : ℚ, 0 ≤ q → pyLtZero (.fin q) = false) ∧
    (∀ x : ℚ, ∃ n : ℤ, roundTo2 x = (n : ℚ) / 100) := by
  refine ⟨?_, ?_, ?_, ?_, ?_⟩
  · intro h
    simp [CurrencyExchange.convert, h]
  · intro h r hr
    simp [CurrencyExchange.convert, h, hr]
  · intro h e he
    simp [CurrencyExchange.convert, h, he]
  · intro q hq
    simp [pyLtZero, not_lt.mpr hq]
  · intro x
    exact ⟨roundHalfEven (x * 100), rfl⟩

/-- C1 witness: a valid conversion on the seed table. -/
theorem C1_convert_spec_witness :
    initialState.convert (PyFloat.fin 100) "USD" "EUR" = .ok (PyFloat.fin 85) := by
  have h := (C1_convert_spec initialState (PyFloat.fin 100) "USD" "EUR").2.1
    (by with_unfolding_all rfl) (PyFloat.fin 0.85) (by with_unfolding_all rfl)
  rw [h]
  with_unfolding_all rfl

/-- C2: `get_exchange_rate` fails with `UnsupportedCurrency` (naming the
offending upper-cased code, source first) when either code is not in the
rate table; when both are supported and equal after upper-casing it returns
exactly 1.0 regardless of the stored rates; otherwise it returns
`rate(to) / rate(from)` — Python division of the two stored base-relative
rates, which for finite non-zero stored rates is the exact quotient. -/
theorem C2_exchange_rate_spec (st : CurrencyExchange) (a b : String) :
    (st.is_valid_currency (pyUpper a) = false →
      st.get_exchange_rate a b =
        .error (.currencyError (.unsupportedCurrency (pyUpper a)))) ∧
    (st.is_valid_currency (pyUpper a) = true →
      st.is_valid_currency (pyUpper b) = false →
      st.get_exchange_rate a b =
        .error (.currencyError (.unsupportedCurrency (pyUpper b)))) ∧
    (st.is_valid_currency (pyUpper a) = true →
      st.is_valid_currency (pyUpper b) = true →
      pyUpper a = pyUpper b → st.get_exchange_rate a b = .ok (.fin 1)) ∧
    (st.is_valid_currency (pyUpper a) = true →
      st.is_valid_currency (pyUpper b) = true →
      pyUpper a ≠ pyUpper b →
      st.get_exchange_rate a b =
        pyDiv (dictGetD (pyUpper b) st.exchange_rates)
              (dictGetD (pyUpper a) st.exchange_rates)) ∧
    (∀ qa qb : ℚ, dictFind (pyUpper a) st.exchange_rates = some (.fin qa) →
      dictFind (pyUpper b) st.exchange_rates = some (.fin qb) →
      st.is_valid_currency (pyUpper a) = true →
      st.is_valid_currency (pyUpper b) = true →
      pyUpper a ≠ pyUpper b → qa ≠ 0 →
      st.get_exchange_rate a b = .ok (.fin (qb / qa))) := by
  refine ⟨?_, ?_, ?_, ?_, ?_⟩
  · intro h
    simp [CurrencyExchange.get_exchange_rate, h]
  · intro h1 h2
    simp [CurrencyExchange.get_exchange_rate, h1, h2]
  · intro h1 h2 h3
    have : (1 : ℚ) = 1.0 := by norm_num
    simp [CurrencyExchange.get_exchange_rate, h1, h2, h3, ← this]
  · intro h1 h2 h3
    simp [CurrencyExchange.get_exchange_rate, h1, h2, h3]
  · intro qa qb hfa hfb h1 h2 h3 hqa
    simp [CurrencyExchange.get_exchange_rate, h1, h2, h3, dictGetD, hfa, hfb,
      pyDiv, PyFloat.fin.injEq, hqa]

/-- C2 witness: a cross-rate on the seed table, lower-case target code. -/
theorem C2_exchange_rate_spec_witness :
    initialState.get_exchange_rate "USD" "eur" = .ok (.fin (0.85 / 1)) := by
  exact (C2_exchange_rate_spec initialState "USD" "eur").2.2.2.2 1 0.85
    (by with_unfolding_all rfl) (by with_unfolding_all rfl)
    (by with_unfolding_all rfl) (by with_unfolding_all rfl)
    (by decide) one_ne_zero

/-- C3 counterexample: on an empty target list `find_best_exchange` raises
the raw `ValueError` of Python's `max()` on an empty sequence — it is not a
`CurrencyExchangeError`, so there is no explicit `EmptyTargetList` library
error as the claim states. -/
theorem C3_counterexample :
    initialState.find_best_exchange (.fin 100) "USD" [] =
      .error .valueErrorEmptySeq ∧
    PyError.valueErrorEmptySeq.isCurrencyExchangeError = false :=
  ⟨rfl, rfl⟩

/-- C3 (amended): on an empty target list `find_best_exchange` fails with
the raw `ValueError` of the empty `max()` reduction (not a library-specific
`EmptyTargetList` error); on a non-empty list whose conversions all succeed
with finite values it returns the record `{currency, amount, formatted,
rate}` of the entry of the conversions mapping with the strictly greatest
converted amount, ties broken in favour of the first entry in the order of
the produced mapping. -/
theorem C3_find_best_spec :
    (∀ (st : CurrencyExchange) (amount : PyFloat) (from_currency : String),
      st.find_best_exchange amount from_currency [] = .error .valueErrorEmptySeq) ∧
    (∀ (st : CurrencyExchange) (amount : PyFloat) (from_currency : String)
      (to_currencies : List String) (m : List (String × PyFloat))
      (best : String × PyFloat) (rate : PyFloat) (fmt : String),
      st.convert_multiple amount from_currency to_currencies = .ok m →
      (m.all fun p => p.2.isFin) = true →
      pyMaxEntry m = some best →
      st.get_exchange_rate from_currency best.1 = .ok rate →
      st.format_currency best.2 best.1 true 2 = .ok fmt →
      st.find_best_exchange amount from_currency to_currencies =
        .ok ⟨best.1, best.2, fmt, rate⟩ ∧
      best ∈ m ∧ (∀ p ∈ m, qval p.2 ≤ qval best.2) ∧
      ∃ l1 l2, m = l1 ++ best :: l2 ∧ ∀ p ∈ l1, qval p.2 < qval best.2) := by
  constructor
  · intro st amount from_currency
    rfl
  · intro st amount from_currency to_currencies m best rate fmt hconv hfin hmax hrate hfmt
    refine ⟨?_, ?_⟩
    · simp only [CurrencyExchange.find_best_exchange, hconv, hmax, hrate, hfmt]
    · cases m with
      | nil => exact absurd hmax (by simp [pyMaxEntry])
      | cons e rest =>
        simp only [pyMaxEntry, Option.some.injEq] at hmax
        obtain ⟨hmem, hbound, l1, l2, hdec, hpre⟩ := foldl_selStep_spec rest e hfin
        rw [hmax] at hmem hbound hdec hpre
        exact ⟨hmem, hbound, l1, l2, hdec, hpre⟩

/-- C3 witness: the seed example, where CAD yields the greatest amount. -/
theorem C3_find_best_spec_witness :
    initialState.find_best_exchange (.fin 100) "USD" ["EUR", "GBP", "CAD"] =
      .ok ⟨"CAD", .fin 125, "C$125.00", .fin 1.25⟩ := by
  exact ((C3_find_best_spec).2 initialState (.fin 100) "USD" ["EUR", "GBP", "CAD"]
    [("EUR", .fin 85), ("GBP", .fin 73), ("CAD", .fin 125)]
    ("CAD", .fin 125) (.fin 1.25) "C$125.00"
    (by with_unfolding_all rfl) (by with_unfolding_all rfl)
    (by with_unfolding_all rfl) (by with_unfolding_all rfl)
    (by with_unfolding_all rfl)).1

/-- C4 counterexample: `update_exchange_rate` accepts infinite and `NaN`
rates.  The claim says any rate that is not a finite positive number fails
with `InvalidRate`, but the source's check is `rate <= 0`, which is `False`
for `inf` and for `NaN`, so both are stored. -/
theorem C4_counterexample :
    initialState.update_exchange_rate "EUR" PyFloat.inf 1 =
      .ok { base_currency := "USD",
            exchange_rates := dictInsert "EUR" PyFloat.inf initialRates,
            last_updated := 1 } ∧
    initialState.update_exchange_rate "EUR" PyFloat.nan 1 =
      .ok { base_currency := "USD",
            exchange_rates := dictInsert "EUR" PyFloat.nan initialRates,
            last_updated := 1 } :=
  ⟨by with_unfolding_all rfl, by with_unfolding_all rfl⟩

/-- C4 (amended): `update_exchange_rate` fails with `UnsupportedCurrency`
when the upper-cased code is not a key of the rate table (so no currency can
be added through this path), fails with `InvalidRate` exactly when
`rate <= 0` holds — zero and negative rates rejected, `NaN` and infinite
rates accepted — and otherwise overwrites the stored rate in place and sets
the last-updated timestamp to the current time. -/
theorem C4_update_rate_spec (st : CurrencyExchange) (code : String)
    (rate : PyFloat) (now : Nat) :
    (st.is_valid_currency (pyUpper code) = false →
      st.update_exchange_rate code rate now =
        .error (.currencyError (.unsupportedCurrency (pyUpper code)))) ∧
    (st.is_valid_currency (pyUpper code) = true → pyLeZero rate = true →
      st.update_exchange_rate code rate now = .error (.currencyError .invalidRate)) ∧
    (st.is_valid_currency (pyUpper code) = true → pyLeZero rate = false →
      st.update_exchange_rate code rate now =
        .ok { st with exchange_rates := dictInsert (pyUpper code) rate st.exchange_rates,
                      last_updated := now }) ∧
    (∀ q : ℚ, pyLeZero (.fin q) = decide (q ≤ 0)) ∧
    pyLeZero .nan = false ∧ pyLeZero .inf = false := by
  refine ⟨?_, ?_, ?_, ?_, rfl, rfl⟩
  · intro h
    simp [CurrencyExchange.update_exchange_rate, h]
  · intro h1 h2
    simp [CurrencyExchange.update_exchange_rate, h1, h2]
  · intro h1 h2
    simp [CurrencyExchange.update_exchange_rate, h1, h2]
  · intro q
    rfl

/-- C4 witness: the spec example `setRate("EUR", 0.9)`. -/
theorem C4_update_rate_spec_witness :
    initialState.update_exchange_rate "EUR" (PyFloat.fin 0.9) 7 =
      .ok { base_currency := "USD",
            exchange_rates := dictInsert "EUR" (PyFloat.fin 0.9) initialRates,
            last_updated := 7 } := by
  have h := (C4_update_rate_spec initialState "EUR" (PyFloat.fin 0.9) 7).2.2.1
    (by with_unfolding_all rfl) (by with_unfolding_all rfl)
  rw [h]
  with_unfolding_all rfl

/-- C5 counterexample: the invariant is not preserved by the operations.
`update_exchange_rate("USD", 2)` passes both checks (USD is a key, 2 > 0)
and overwrites the base currency's rate, so a state reachable in one step
from the seed has base rate 2, not 1.0. -/
theorem C5_counterexample :
    Reachable (applyOp initialState (.setRate "USD" (.fin 2) 1)) ∧
    ¬ ratesInvariant (applyOp initialState (.setRate "USD" (.fin 2) 1)) := by
  constructor
  · exact Reachable.step Reachable.init _
  · intro h
    have h2 : dictFind (applyOp initialState (.setRate "USD" (.fin 2) 1)).base_currency
        (applyOp initialState (.setRate "USD" (.fin 2) 1)).exchange_rates =
        some (PyFloat.fin 2) := by with_unfolding_all rfl
    have h1 := h.1
    rw [h2] at h1
    have h3 : (2 : ℚ) = 1 := PyFloat.fin.inj (Option.some.inj h1)
    norm_num at h3

/-- C5 (amended): the seeded initial state does satisfy the claimed
invariant — the base currency (USD) is stored with rate exactly 1.0 and all
twenty seeded rates are strictly positive finite numbers — but the invariant
is not preserved by the reachable-state operations (see the counterexample). -/
theorem C5_seed_invariant : ratesInvariant initialState := by
  unfold ratesInvariant
  exact ⟨by with_unfolding_all rfl, by with_unfolding_all rfl⟩

/-- C6: export-then-import round trip.  Exporting a state and importing the
document into a freshly seeded table yields no error, restores the exported
rate for every exported code, and copies the exported base currency and
last-updated timestamp; and `import_rates` merges (upserts), so any code not
mentioned in an imported document keeps its prior rate. -/
theorem C6_round_trip_spec (st : CurrencyExchange) (now : Nat)
    (hnodup : (st.exchange_rates.map Prod.fst).Nodup) :
    (initialState.import_rates st.export_rates now).2 = none ∧
    (initialState.import_rates st.export_rates now).1.base_currency = st.base_currency ∧
    (initialState.import_rates st.export_rates now).1.last_updated = st.last_updated ∧
    (∀ c r, dictFind c st.exchange_rates = some r →
      dictFind c (initialState.import_rates st.export_rates now).1.exchange_rates = some r) ∧
    (∀ c, dictFind c st.exchange_rates = none →
      dictFind c (initialState.import_rates st.export_rates now).1.exchange_rates =
        dictFind c initialRates) ∧
    (∀ (st2 : CurrencyExchange) (m : List (String × PyFloat)) (c : String),
      dictFind c m = none →
      dictFind c ((st2.import_rates
          { base_currency := none, exchange_rates := some m, last_updated := none,
            currency_symbols := none, currency_names := none } now).1.exchange_rates) =
        dictFind c st2.exchange_rates) := by
  have hred : initialState.import_rates st.export_rates now =
      ({ base_currency := st.base_currency,
         exchange_rates := dictUpdate initialRates st.exchange_rates,
         last_updated := st.last_updated }, none) := rfl
  refine ⟨by rw [hred], by rw [hred], by rw [hred], ?_, ?_, ?_⟩
  · intro c r h
    rw [hred]
    exact dictFind_dictUpdate_some c r st.exchange_rates initialRates hnodup h
  · intro c h
    rw [hred]
    exact dictFind_dictUpdate_none c st.exchange_rates initialRates h
  · intro st2 m c h
    have hred2 : st2.import_rates
        { base_currency := none, exchange_rates := some m, last_updated := none,
          currency_symbols := none, currency_names := none } now =
        ({ st2 with exchange_rates := dictUpdate st2.exchange_rates m,
                    last_updated := now }, none) := rfl
    rw [hred2]
    exact dictFind_dictUpdate_none c m st2.exchange_rates h

/-- C6 witness: round trip of a two-currency state through the seed. -/
theorem C6_round_trip_spec_witness :
    (initialState.import_rates
        (CurrencyExchange.mk "USD" [("EUR", PyFloat.fin 2), ("ZZZ", PyFloat.fin 3)] 42).export_rates
        7).2 = none ∧
    (initialState.import_rates
        (CurrencyExchange.mk "USD" [("EUR", PyFloat.fin 2), ("ZZZ", PyFloat.fin 3)] 42).export_rates
        7).1.last_updated = 42 ∧
    dictFind "ZZZ" (initialState.import_rates
        (CurrencyExchange.mk "USD" [("EUR", PyFloat.fin 2), ("ZZZ", PyFloat.fin 3)] 42).export_rates
        7).1.exchange_rates = some (PyFloat.fin 3) ∧
    dictFind "JPY" (initialState.import_rates
        (CurrencyExchange.mk "USD" [("EUR", PyFloat.fin 2), ("ZZZ", PyFloat.fin 3)] 42).export_rates
        7).1.exchange_rates = some (PyFloat.fin 110) := by
  have h := C6_round_trip_spec
    (CurrencyExchange.mk "USD" [("EUR", PyFloat.fin 2), ("ZZZ", PyFloat.fin 3)] 42) 7
    (by decide)
  refine ⟨h.1, h.2.2.1, ?_, ?_⟩
  · exact h.2.2.2.1 "ZZZ" (PyFloat.fin 3) (by with_unfolding_all rfl)
  · exact (h.2.2.2.2.1 "JPY" (by with_unfolding_all rfl)).trans (by with_unfolding_all rfl)

theorem convertMultipleAux_fail (st : CurrencyExchange) (amount : PyFloat)
    (from_currency : String) :
    ∀ (xs : List String) (c : String) (ys : List String) (e : PyError)
      (acc : List (String × PyFloat)),
      (∀ d ∈ xs, ∃ v, st.convert amount from_currency d = .ok v) →
      st.convert amount from_currency c = .error e →
      convertMultipleAux st amount from_currency (xs ++ c :: ys) acc = .error e := by
  intro xs
  induction xs with
  | nil =>
    intro c ys e acc _ hc
    simp [convertMultipleAux, hc]
  | cons d rest ih =>
    intro c ys e acc hok hc
    obtain ⟨v, hv⟩ := hok d (List.mem_cons_self _ _)
    simp only [List.cons_append, convertMultipleAux, hv]
    exact ih c ys e _ (fun d2 hd2 => hok d2 (List.mem_cons_of_mem _ hd2)) hc

/-- C7: `convert_multiple` keys its result mapping by the upper-cased target
codes with each value the result of `convert`; it processes targets in input
list order and fails fast with the error of the first invalid target; and on
the seed table `convert_multiple(100, "USD", ["EUR", "GBP"])` is exactly
`{"EUR": 85.0, "GBP": 73.0}`. -/
theorem C7_convert_multiple_spec :
    (initialState.convert_multiple (.fin 100) "USD" ["EUR", "GBP"] =
      .ok [("EUR", .fin 85), ("GBP", .fin 73)]) ∧
    (∀ (st : CurrencyExchange) (amount : PyFloat) (from_currency : String)
      (xs : List String) (c : String) (ys : List String) (e : PyError),
      (∀ d ∈ xs, ∃ v, st.convert amount from_currency d = .ok v) →
      st.convert amount from_currency c = .error e →
      st.convert_multiple amount from_currency (xs ++ c :: ys) = .error e) ∧
    (∀ (st : CurrencyExchange) (amount : PyFloat) (from_currency : String)
      (tos : List String) (m : List (String × PyFloat)),
      st.convert_multiple amount from_currency tos = .ok m →
      ∀ c ∈ tos, ∃ v, st.convert amount from_currency c = .ok v ∧
        dictFind (pyUpper c) m = some v) := by
  refine ⟨by with_unfolding_all rfl, ?_, ?_⟩
  · intro st amount from_currency xs c ys e hok hc
    exact convertMultipleAux_fail st amount from_currency xs c ys e [] hok hc
  · intro st amount from_currency tos m h c hc
    exact convertMultipleAux_mem_spec st amount from_currency tos [] m h c hc

/-- C7 witness: the first invalid target (in list order) determines the
reported error. -/
theorem C7_convert_multiple_spec_witness :
    initialState.convert_multiple (.fin 100) "USD" ["EUR", "XYZ"] =
      .error (.currencyError (.unsupportedCurrency "XYZ")) := by
  exact (C7_convert_multiple_spec).2.1 initialState (.fin 100) "USD" ["EUR"] "XYZ" []
    (.currencyError (.unsupportedCurrency "XYZ"))
    (fun d hd => by
      rw [List.mem_singleton] at hd
      subst hd
      exact ⟨.fin 85, by with_unfolding_all rfl⟩)
    (by with_unfolding_all rfl)

/-- C8: `update_multiple_rates` applies `update_exchange_rate` to each entry
in the mapping's iteration order; if every update of a prefix succeeds and
the next entry fails, the remaining updates are aborted and the state at
exit is exactly the state after the successful prefix — the operation is not
atomic. -/
theorem C8_update_multiple_spec :
    (∀ (st : CurrencyExchange) (now : Nat) (xs : List (String × PyFloat))
      (st1 : CurrencyExchange), runUpdates st now xs = some st1 →
      st.update_multiple_rates xs now = (st1, none)) ∧
    (∀ (st : CurrencyExchange) (now : Nat) (xs : List (String × PyFloat))
      (st1 : CurrencyExchange) (c : String) (r : PyFloat)
      (ys : List (String × PyFloat)) (e : PyError),
      runUpdates st now xs = some st1 →
      st1.update_exchange_rate c r now = .error e →
      st.update_multiple_rates (xs ++ (c, r) :: ys) now = (st1, some e)) := by
  constructor
  · intro st now xs
    induction xs generalizing st with
    | nil =>
      intro st1 h
      obtain rfl := Option.some.inj h
      rfl
    | cons p rest ih =>
      intro st1 h
      obtain ⟨c0, r0⟩ := p
      simp only [runUpdates] at h
      cases hu : st.update_exchange_rate c0 r0 now with
      | error e0 =>
        rw [hu] at h
        exact Option.noConfusion h
      | ok stN =>
        rw [hu] at h
        simp only [CurrencyExchange.update_multiple_rates, hu]
        exact ih stN st1 h
  · intro st now xs
    induction xs generalizing st with
    | nil =>
      intro st1 c r ys e h he
      obtain rfl := Option.some.inj h
      simp only [List.nil_append, CurrencyExchange.update_multiple_rates, he]
    | cons p rest ih =>
      intro st1 c r ys e h he
      obtain ⟨c0, r0⟩ := p
      simp only [runUpdates] at h
      cases hu : st.update_exchange_rate c0 r0 now with
      | error e0 =>
        rw [hu] at h
        exact Option.noConfusion h
      | ok stN =>
        rw [hu] at h
        simp only [List.cons_append, CurrencyExchange.update_multiple_rates, hu]
        exact ih stN st1 c r ys e h he

/-- C8 witness: the spec scenario — EUR is updated, XYZ aborts the batch,
JPY is never processed, and the EUR update stays applied. -/
theorem C8_update_multiple_spec_witness :
    initialState.update_multiple_rates
        [("EUR", PyFloat.fin 0.9), ("XYZ", PyFloat.fin 1), ("JPY", PyFloat.fin 5)] 3 =
      ({ base_currency := "USD",
         exchange_rates := dictInsert "EUR" (PyFloat.fin 0.9) initialRates,
         last_updated := 3 }, some (.currencyError (.unsupportedCurrency "XYZ"))) := by
  exact (C8_update_multiple_spec).2 initialState 3 [("EUR", PyFloat.fin 0.9)]
    { base_currency := "USD",
      exchange_rates := dictInsert "EUR" (PyFloat.fin 0.9) initialRates,
      last_updated := 3 }
    "XYZ" (PyFloat.fin 1) [("JPY", PyFloat.fin 5)]
    (.currencyError (.unsupportedCurrency "XYZ"))
    (by with_unfolding_all rfl) (by with_unfolding_all rfl)

/-- C9: `format_currency` fails with `UnsupportedCurrency` when the code is
unknown; otherwise it renders the amount with comma thousands-grouping, a
dot decimal point and `decimal_places` fractional digits, prefixed by the
currency's symbol with no space when `include_symbol` is true, else suffixed
by a single space and the upper-cased code; in particular
`format_currency(1234.5, "USD")` is `"$1,234.50"` and with
`include_symbol=False` it is `"1,234.50 USD"`. -/
theorem C9_format_currency_spec (st : CurrencyExchange) (amount : PyFloat)
    (code : String) (include_symbol : Bool) (dp : Nat) :
    (st.is_valid_currency (pyUpper code) = false →
      st.format_currency amount code include_symbol dp =
        .error (.currencyError (.unsupportedCurrency (pyUpper code)))) ∧
    (∀ s, st.is_valid_currency (pyUpper code) = true →
      st.get_currency_symbol (pyUpper code) = .ok s →
      st.format_currency amount code true dp = .ok (s ++ pyFormatFixed amount dp)) ∧
    (st.is_valid_currency (pyUpper code) = true →
      st.format_currency amount code false dp =
        .ok (pyFormatFixed amount dp ++ " " ++ pyUpper code)) ∧
    initialState.format_currency (.fin 1234.5) "USD" true 2 = .ok "$1,234.50" ∧
    initialState.format_currency (.fin 1234.5) "USD" false 2 = .ok "1,234.50 USD" := by
  refine ⟨?_, ?_, ?_, by with_unfolding_all rfl, by with_unfolding_all rfl⟩
  · intro h
    simp [CurrencyExchange.format_currency, h]
  · intro s h1 h2
    simp [CurrencyExchange.format_currency, h1, h2]
  · intro h1
    simp [CurrencyExchange.format_currency, h1]

/-- C9 witness: an unknown code is rejected with the upper-cased code in the
error. -/
theorem C9_format_currency_spec_witness :
    initialState.format_currency (.fin 5) "xyz" true 2 =
      .error (.currencyError (.unsupportedCurrency "XYZ")) := by
  have h := (C9_format_currency_spec initialState (.fin 5) "xyz" true 2).1
    (by with_unfolding_all rfl)
  rw [h]
  with_unfolding_all rfl

/-- C10: `import_rates` is not atomic and its error wrapping has a gap.  On
a document whose `exchange_rates` mapping is valid but whose `last_updated`
is not parsable ISO-8601, the rate merge is applied (EUR is overwritten to
2) and not rolled back, and the failure escapes as the raw `ValueError` of
`datetime.fromisoformat` — not wrapped into `CurrencyExchangeError`, since
the source's `except` clause catches only `FileNotFoundError`,
`json.JSONDecodeError` and `KeyError`. -/
theorem C10_import_gap :
    dictFind "EUR" (initialState.import_rates badTimestampDoc 5).1.exchange_rates =
      some (PyFloat.fin 2) ∧
    (initialState.import_rates badTimestampDoc 5).1.base_currency = "USD" ∧
    (initialState.import_rates badTimestampDoc 5).2 =
      some (.valueErrorBadIsoformat "not-a-timestamp") ∧
    (PyError.valueErrorBadIsoformat "not-a-timestamp").isCurrencyExchangeError = false := by
  refine ⟨?_, ?_, ?_, ?_⟩ <;> with_unfolding_all rfl
